import Mathlib

set_option maxRecDepth 10000

/-!
A shallow embedding, in Lean 4, of the news collection pipeline implemented in
`newsapi250720_flask01.py` (class `LGBTQNewsCollector` and the `Article`
dataclass), together with proofs about the claims its design specification
makes.  Python strings are Lean `String`s, Python `datetime` values are
modelled by `PyDateTime` (a wall-clock instant in seconds plus an optional
fixed UTC offset, `none` modelling a naive datetime), exceptions become
`Except`/`Option` values, and the network (feed fetching, the NewsAPI
endpoint, thumbnail scraping) is modelled by explicit oracle parameters so
that every theorem quantifies over all possible network behaviours.
-/

/-! ## Character and string helpers -/

/-- Lower-case a string character by character, as `str.lower` does for the
ASCII inputs exercised by the pipeline (Lean's `Char.toLower` maps only the
ASCII range, which covers every keyword in the source configuration). -/
def lowerString (s : String) : String := ⟨s.data.map Char.toLower⟩

/-- Boolean test that one character list is an initial segment of another. -/
def charsStart : List Char → List Char → Bool
  | [], _ => true
  | _ :: _, [] => false
  | a :: as, b :: bs => a == b && charsStart as bs

/-- Boolean substring occurrence test on character lists; `charsSub n h`
is true iff `n` occurs contiguously inside `h`.  This is Python's
`needle in haystack` on strings (in particular the empty needle always
occurs). -/
def charsSub (needle : List Char) : List Char → Bool
  | [] => needle.isEmpty
  | c :: rest => charsStart needle (c :: rest) || charsSub needle rest

/-- Python's `needle in haystack` substring test, lifted to `String`. -/
def containsSub (needle hay : String) : Bool := charsSub needle.data hay.data

/-- Look a key up in an association list modelling a Python `dict`, with a
default value: `d.get(key, dflt)`. -/
def dictGetD (d : List (String × String)) (key dflt : String) : String :=
  match d.find? (fun p => p.1 == key) with
  | some p => p.2
  | none => dflt

/-! ## Calendar arithmetic

Python `datetime` values are converted to a count of seconds since the
proleptic Gregorian epoch 0001-01-01 00:00:00 so that datetime comparison
and `timedelta` subtraction become integer arithmetic. -/

def isLeapYear (y : Nat) : Bool := (y % 4 == 0 && y % 100 != 0) || y % 400 == 0

def daysInMonth (y m : Nat) : Nat :=
  if m == 2 then (if isLeapYear y then 29 else 28)
  else if m == 4 || m == 6 || m == 9 || m == 11 then 30
  else 31

/-- Days in all years strictly before year `y` in the proleptic Gregorian
calendar (year 1 is the first year, as in Python's `datetime`). -/
def daysBeforeYear (y : Nat) : Nat :=
  365 * (y - 1) + (y - 1) / 4 - (y - 1) / 100 + (y - 1) / 400

/-- Days in the months of year `y` strictly before month `m`. -/
def daysBeforeMonth (y m : Nat) : Nat :=
  ((List.range (m - 1)).map (fun i => daysInMonth y (i + 1))).sum

/-- Day number (0-based from 0001-01-01) of a civil date. -/
def civilDays (y m d : Nat) : Nat := daysBeforeYear y + daysBeforeMonth y m + (d - 1)

/-- Seconds since 0001-01-01 00:00:00 of a civil date-time. -/
def civilSecs (y mo d h mi s : Nat) : Int :=
  ((civilDays y mo d) * 86400 + h * 3600 + mi * 60 + s : Nat)

/-- The argument ranges accepted by Python's `datetime` constructor
(`ValueError` outside them). -/
def validDate (y mo d h mi s : Int) : Bool :=
  1 ≤ y && y ≤ 9999 && 1 ≤ mo && mo ≤ 12 && 1 ≤ d &&
    d ≤ (daysInMonth y.toNat mo.toNat : Int) &&
    0 ≤ h && h < 24 && 0 ≤ mi && mi < 60 && 0 ≤ s && s < 60

/-! ## The `datetime` model -/

/-- Model of a Python `datetime`: `wall` is the wall-clock reading in seconds
on the proleptic Gregorian timeline and `tz` is the fixed UTC offset of its
`tzinfo` in seconds, with `none` modelling a naive datetime. -/
structure PyDateTime where
  wall : Int
  tz : Option Int
deriving DecidableEq, Repr

/-- The instant (UTC seconds) named by an aware datetime; naive datetimes
are only ever compared after normalization in the source, so the `getD`
branch is never semantically relevant. -/
def PyDateTime.instant (d : PyDateTime) : Int := d.wall - d.tz.getD 0

/-- Python `<` on two aware datetimes compares the instants they denote. -/
def dtLt (a b : PyDateTime) : Bool := a.instant < b.instant

/-- Constructor call `datetime(y, mo, d, h, mi, s, tzinfo=timezone.utc)`: range-check the
components, then build an aware UTC datetime. -/
def datetimeUTC (y mo d h mi s : Int) : Option PyDateTime :=
  if validDate y mo d h mi s then
    some ⟨civilSecs y.toNat mo.toNat d.toNat h.toNat mi.toNat s.toNat, some 0⟩
  else none

/-! ## MD5

`Article.__post_init__` computes `hashlib.md5(f"{title}{url}".encode()).hexdigest()`.
The algorithm is reproduced here bit for bit over `Nat` with explicit
reduction modulo `2^32`. -/

def md5K : List Nat :=
  [0xd76aa478, 0xe8c7b756, 0x242070db, 0xc1bdceee,
   0xf57c0faf, 0x4787c62a, 0xa8304613, 0xfd469501,
   0x698098d8, 0x8b44f7af, 0xffff5bb1, 0x895cd7be,
   0x6b901122, 0xfd987193, 0xa679438e, 0x49b40821,
   0xf61e2562, 0xc040b340, 0x265e5a51, 0xe9b6c7aa,
   0xd62f105d, 0x02441453, 0xd8a1e681, 0xe7d3fbc8,
   0x21e1cde6, 0xc33707d6, 0xf4d50d87, 0x455a14ed,
   0xa9e3e905, 0xfcefa3f8, 0x676f02d9, 0x8d2a4c8a,
   0xfffa3942, 0x8771f681, 0x6d9d6122, 0xfde5380c,
   0xa4beea44, 0x4bdecfa9, 0xf6bb4b60, 0xbebfbc70,
   0x289b7ec6, 0xeaa127fa, 0xd4ef3085, 0x04881d05,
   0xd9d4d039, 0xe6db99e5, 0x1fa27cf8, 0xc4ac5665,
   0xf4292244, 0x432aff97, 0xab9423a7, 0xfc93a039,
   0x655b59c3, 0x8f0ccc92, 0xffeff47d, 0x85845dd1,
   0x6fa87e4f, 0xfe2ce6e0, 0xa3014314, 0x4e0811a1,
   0xf7537e82, 0xbd3af235, 0x2ad7d2bb, 0xeb86d391]

def md5S : List Nat :=
  [7, 12, 17, 22, 7, 12, 17, 22, 7, 12, 17, 22, 7, 12, 17, 22,
   5,  9, 14, 20, 5,  9, 14, 20, 5,  9, 14, 20, 5,  9, 14, 20,
   4, 11, 16, 23, 4, 11, 16, 23, 4, 11, 16, 23, 4, 11, 16, 23,
   6, 10, 15, 21, 6, 10, 15, 21, 6, 10, 15, 21, 6, 10, 15, 21]

def rotl32 (x s : Nat) : Nat := ((x <<< s) ||| (x >>> (32 - s))) % 4294967296

def not32 (x : Nat) : Nat := x ^^^ 4294967295

/-- UTF-8 encoding of one character as a byte list (`str.encode()`). -/
def utf8Enc (c : Char) : List Nat :=
  let n := c.toNat
  if n < 0x80 then [n]
  else if n < 0x800 then
    [0xC0 ||| (n >>> 6), 0x80 ||| (n &&& 0x3F)]
  else if n < 0x10000 then
    [0xE0 ||| (n >>> 12), 0x80 ||| ((n >>> 6) &&& 0x3F), 0x80 ||| (n &&& 0x3F)]
  else
    [0xF0 ||| (n >>> 18), 0x80 ||| ((n >>> 12) &&& 0x3F),
     0x80 ||| ((n >>> 6) &&& 0x3F), 0x80 ||| (n &&& 0x3F)]

def strBytes (s : String) : List Nat := s.data.flatMap utf8Enc

/-- Little-endian byte decomposition of a value into `n` bytes. -/
def leBytes (n v : Nat) : List Nat := (List.range n).map fun i => (v >>> (8 * i)) &&& 0xFF

/-- Standard MD5 padding: `0x80`, zeros to 56 mod 64, then the 64-bit
little-endian bit length. -/
def md5Pad (msg : List Nat) : List Nat :=
  let z := (119 - msg.length % 64) % 64
  msg ++ [0x80] ++ List.replicate z 0 ++ leBytes 8 ((msg.length * 8) % (2 ^ 64))

def chunks64 (l : List Nat) : List (List Nat) :=
  (List.range ((l.length + 63) / 64)).map fun i => (l.drop (64 * i)).take 64

/-- Word `g` (32-bit little-endian) of a 64-byte block. -/
def blockWord (block : List Nat) (g : Nat) : Nat :=
  block.getD (4 * g) 0 + block.getD (4 * g + 1) 0 * 256 +
    block.getD (4 * g + 2) 0 * 65536 + block.getD (4 * g + 3) 0 * 16777216

def md5Round (block : List Nat) (st : Nat × Nat × Nat × Nat) (i : Nat) :
    Nat × Nat × Nat × Nat :=
  let a := st.1; let b := st.2.1; let c := st.2.2.1; let d := st.2.2.2
  let fg : Nat × Nat :=
    if i < 16 then ((b &&& c) ||| (not32 b &&& d), i)
    else if i < 32 then ((d &&& b) ||| (not32 d &&& c), (5 * i + 1) % 16)
    else if i < 48 then (b ^^^ c ^^^ d, (3 * i + 5) % 16)
    else (c ^^^ (b ||| not32 d), (7 * i) % 16)
  let f := (fg.1 + a + md5K.getD i 0 + blockWord block fg.2) % 4294967296
  (d, (b + rotl32 f (md5S.getD i 0)) % 4294967296, b, c)

def md5Block (st : Nat × Nat × Nat × Nat) (block : List Nat) : Nat × Nat × Nat × Nat :=
  let r := (List.range 64).foldl (md5Round block) st
  ((st.1 + r.1) % 4294967296, (st.2.1 + r.2.1) % 4294967296,
   (st.2.2.1 + r.2.2.1) % 4294967296, (st.2.2.2 + r.2.2.2) % 4294967296)

def md5Bytes (msg : List Nat) : List Nat :=
  let st := (chunks64 (md5Pad msg)).foldl md5Block
    (0x67452301, 0xefcdab89, 0x98badcfe, 0x10325476)
  leBytes 4 st.1 ++ leBytes 4 st.2.1 ++ leBytes 4 st.2.2.1 ++ leBytes 4 st.2.2.2

def hexChar (n : Nat) : Char := if n < 10 then Char.ofNat (48 + n) else Char.ofNat (87 + n)

/-- The hex digest `hashlib.md5(s.encode()).hexdigest()`. -/
def md5Hex (s : String) : String :=
  ⟨(md5Bytes (strBytes s)).flatMap (fun b => [hexChar (b / 16), hexChar (b % 16)])⟩

/-! ## `datetime.fromisoformat`

Model of the grammar accepted by `datetime.fromisoformat` up to Python 3.10
(`YYYY-MM-DD[<sep>HH[:MM[:SS[.fff[fff]]]][±HH:MM]]`, any single separator
character), restricted to whole-second offsets; fractional seconds are
validated and discarded since `PyDateTime` tracks whole seconds, which is
all the pipeline ever compares. -/

def digitVal (c : Char) : Option Nat := if c.isDigit then some (c.toNat - 48) else none

def digits2 : List Char → Option (Nat × List Char)
  | a :: b :: rest =>
    match digitVal a, digitVal b with
    | some x, some y => some (10 * x + y, rest)
    | _, _ => none
  | _ => none

def digits4 : List Char → Option (Nat × List Char)
  | a :: b :: c :: d :: rest =>
    match digitVal a, digitVal b, digitVal c, digitVal d with
    | some w, some x, some y, some z => some (1000 * w + 100 * x + 10 * y + z, rest)
    | _, _, _, _ => none
  | _ => none

def expectChar (c : Char) : List Char → Option (List Char)
  | x :: rest => if x == c then some rest else none
  | [] => none

/-- Optional fractional-second part: absent, or a dot followed by exactly
three or six digits (the only widths accepted before Python 3.11). -/
def isoFrac : List Char → Option (List Char)
  | '.' :: rest =>
    let ds := rest.takeWhile Char.isDigit
    if ds.length == 3 || ds.length == 6 then some (rest.drop ds.length) else none
  | rest => some rest

/-- Optional trailing `±HH:MM` UTC offset; `none` in the first component
means no offset was written, i.e. a naive result. -/
def isoOffset : List Char → Option (Option Int × List Char)
  | [] => some (none, [])
  | '+' :: rest =>
    (do
      let (oh, r1) ← digits2 rest
      let r2 ← expectChar ':' r1
      let (om, r3) ← digits2 r2
      if oh < 24 && om < 60 then some (some ((oh * 3600 + om * 60 : Nat) : Int), r3)
      else none)
  | '-' :: rest =>
    (do
      let (oh, r1) ← digits2 rest
      let r2 ← expectChar ':' r1
      let (om, r3) ← digits2 r2
      if oh < 24 && om < 60 then some (some (-((oh * 3600 + om * 60 : Nat) : Int)), r3)
      else none)
  | _ => none

/-- Time part `HH[:MM[:SS[.frac]]]`, with leftover input returned for the offset. -/
def isoTime (cs : List Char) : Option (Nat × Nat × Nat × List Char) := do
  let (h, r1) ← digits2 cs
  match r1 with
  | ':' :: r2 =>
    (do
      let (mi, r3) ← digits2 r2
      match r3 with
      | ':' :: r4 =>
        (do
          let (s, r5) ← digits2 r4
          let r6 ← isoFrac r5
          some (h, mi, s, r6))
      | _ => some (h, mi, 0, r3))
  | _ => some (h, 0, 0, r1)

def fromisoformat (s : String) : Option PyDateTime := do
  let (y, r1) ← digits4 s.data
  let r2 ← expectChar '-' r1
  let (mo, r3) ← digits2 r2
  let r4 ← expectChar '-' r3
  let (d, r5) ← digits2 r4
  match r5 with
  | [] =>
    if validDate y mo d 0 0 0 then some ⟨civilSecs y mo d 0 0 0, none⟩ else none
  | _ :: r6 =>
    (do
      let (h, mi, sec, r7) ← isoTime r6
      let (off, r8) ← isoOffset r7
      if r8.isEmpty && validDate y mo d h mi sec then
        some ⟨civilSecs y mo d h mi sec, off⟩
      else none)

/-! ## `dateutil.parser.parse`

`_parse_date` hands free-text date fields to the external
`dateutil.parser.parse` with a `tzinfos` table for the eight North American
zone abbreviations.  Modelled subset of that external library: RFC-822 style
dates `[Www[,] ]DD Mon YYYY HH:MM:SS[ ZZZ|±HHMM]`, with unknown alphabetic
zone tokens yielding a naive result exactly as `dateutil` does when the
abbreviation is missing from `tzinfos`; anything else is treated as
unparseable (a raised exception, swallowed by the caller). -/

/-- The `tzinfos` mapping passed to the parser in `_parse_date`
(offsets in seconds). -/
def tzinfosTable : List (String × Int) :=
  [("EDT", -4 * 3600), ("EST", -5 * 3600), ("PDT", -7 * 3600), ("PST", -8 * 3600),
   ("CDT", -5 * 3600), ("CST", -6 * 3600), ("MDT", -6 * 3600), ("MST", -7 * 3600)]

def skipSpaces (cs : List Char) : List Char := cs.dropWhile (· == ' ')

def natOfDigits (ds : List Char) : Nat := ds.foldl (fun acc c => 10 * acc + (c.toNat - 48)) 0

def digits1or2 (cs : List Char) : Option (Nat × List Char) :=
  let ds := cs.takeWhile Char.isDigit
  if ds.length == 1 || ds.length == 2 then some (natOfDigits ds, cs.drop ds.length) else none

def digitsExactly4 (cs : List Char) : Option (Nat × List Char) :=
  let ds := cs.takeWhile Char.isDigit
  if ds.length == 4 then some (natOfDigits ds, cs.drop ds.length) else none

def monthOfName (cs : List Char) : Option Nat :=
  match String.mk (cs.map Char.toLower) with
  | "jan" => some 1 | "feb" => some 2 | "mar" => some 3 | "apr" => some 4
  | "may" => some 5 | "jun" => some 6 | "jul" => some 7 | "aug" => some 8
  | "sep" => some 9 | "oct" => some 10 | "nov" => some 11 | "dec" => some 12
  | "january" => some 1 | "february" => some 2 | "march" => some 3
  | "april" => some 4 | "june" => some 6 | "july" => some 7
  | "august" => some 8 | "september" => some 9 | "october" => some 10
  | "november" => some 11 | "december" => some 12
  | _ => none

/-- Drop a leading weekday token (with optional comma), if any. -/
def dropWeekday (cs : List Char) : List Char :=
  match cs with
  | c :: _ =>
    if c.isAlpha then
      let rest := cs.dropWhile Char.isAlpha
      let rest2 := match rest with
        | ',' :: r => r
        | r => r
      skipSpaces rest2
    else cs
  | [] => cs

/-- A named zone: the source's `tzinfos` table, or the abbreviations
`dateutil` resolves natively to UTC. -/
def tzTokOffset (tok : String) : Option Int :=
  if tok == "GMT" || tok == "UTC" || tok == "UT" || tok == "Z" then some 0
  else
    match tzinfosTable.find? (fun p => p.1 == tok) with
    | some p => some p.2
    | none => none

/-- Trailing zone designator: absent (naive), a known or unknown alphabetic
token, or `±HHMM`.  `none` is a parse failure, `some none` a naive result,
`some (some o)` an aware result with offset `o` seconds. -/
def parseTzPart : List Char → Option (Option Int)
  | [] => some none
  | '+' :: rest =>
    let ds := rest.takeWhile Char.isDigit
    if ds.length == 4 && (rest.drop 4).isEmpty then
      let v := natOfDigits ds
      if v / 100 < 24 && v % 100 < 60 then
        some (some ((v / 100) * 3600 + (v % 100) * 60))
      else none
    else none
  | '-' :: rest =>
    let ds := rest.takeWhile Char.isDigit
    if ds.length == 4 && (rest.drop 4).isEmpty then
      let v := natOfDigits ds
      if v / 100 < 24 && v % 100 < 60 then
        some (some (-((v / 100) * 3600 + (v % 100) * 60 : Int)))
      else none
    else none
  | cs =>
    let tok := cs.takeWhile Char.isAlpha
    if tok.isEmpty || !(cs.dropWhile Char.isAlpha).isEmpty then none
    else some (tzTokOffset ⟨tok⟩)

def dateutilParse (s : String) : Option PyDateTime := do
  let cs := dropWeekday (skipSpaces s.data)
  let (d, r1) ← digits1or2 cs
  let r2 := skipSpaces r1
  let mo ← monthOfName (r2.takeWhile Char.isAlpha)
  let r3 := skipSpaces (r2.dropWhile Char.isAlpha)
  let (y, r4) ← digitsExactly4 r3
  let r5 := skipSpaces r4
  let (h, r6) ← digits2 r5
  let r7 ← expectChar ':' r6
  let (mi, r8) ← digits2 r7
  let r9 ← expectChar ':' r8
  let (sec, r10) ← digits2 r9
  let off ← parseTzPart (skipSpaces r10)
  if validDate y mo d h mi sec then some ⟨civilSecs y mo d h mi sec, off⟩ else none

/-! ## Raw feed entries and `_parse_date` -/

/-- The dynamic value of a feedparser content attribute: a string, a list of
dicts (each with an optional `value` key), or some other shape (which the
source skips with `continue`). -/
inductive ContentVal where
  | str : String → ContentVal
  | lst : List (List (String × String)) → ContentVal
  | other : ContentVal
deriving DecidableEq

/-- A raw feed entry: the optional attributes the pipeline reads.  `none`
models `hasattr(entry, f) == False` (attribute access raising
`AttributeError`, which the per-entry handler turns into a skip). -/
structure Entry where
  title : Option String
  link : Option String
  content : Option ContentVal
  summary : Option ContentVal
  description : Option ContentVal
  published_parsed : Option (List Int)
  updated_parsed : Option (List Int)
  published : Option String
  updated : Option String
deriving DecidableEq

/-- Python `datetime(*time_struct[:6], tzinfo=timezone.utc)` applied to a truthy
struct-time attribute; fewer than three components raise (`TypeError`) and
out-of-range components raise (`ValueError`), both swallowed by the
enclosing `try`. -/
def structTimeDate : Option (List Int) → Option PyDateTime
  | none => none
  | some ts =>
    if ts.isEmpty then none
    else
      match ts.take 6 with
      | [y, mo, d, h, mi, s] => datetimeUTC y mo d h mi s
      | [y, mo, d, h, mi] => datetimeUTC y mo d h mi 0
      | [y, mo, d, h] => datetimeUTC y mo d h 0 0
      | [y, mo, d] => datetimeUTC y mo d 0 0 0
      | _ => none

/-- The free-text branch of `_parse_date`: parse with `dateutil` and force a
naive result to UTC via `dt.replace(tzinfo=timezone.utc)`. -/
def textFieldDate : Option String → Option PyDateTime
  | none => none
  | some s =>
    match dateutilParse s with
    | none => none
    | some dt => some (if dt.tz.isNone then { dt with tz := some 0 } else dt)

/-- Method `_parse_date`: structured fields first (`published_parsed`,
`updated_parsed`), then textual fields (`published`, `updated`); every
failure falls through, exhausting all strategies returns `None`. -/
def _parse_date (e : Entry) : Option PyDateTime :=
  match structTimeDate e.published_parsed with
  | some dt => some dt
  | none =>
    match structTimeDate e.updated_parsed with
    | some dt => some dt
    | none =>
      match textFieldDate e.published with
      | some dt => some dt
      | none => textFieldDate e.updated

/-- Method `normalize_datetime`: a naive datetime is stamped UTC in place, an aware
one is converted to the same instant with a zero offset. -/
def normalize_datetime (dt : PyDateTime) : PyDateTime :=
  match dt.tz with
  | none => { dt with tz := some 0 }
  | some off => ⟨dt.wall - off, some 0⟩

/-! ## Content extraction and HTML cleaning

`_clean_html_content` delegates markup stripping to the external
BeautifulSoup library (`html.parser`, remove `script`/`style` elements,
`get_text()`).  `stripMarkup` models that library call for markup of the
kind feeds carry: tags are deleted, the entire content of `script` and
`style` elements is deleted, text nodes are concatenated.  The subsequent
whitespace normalization is the source's own code and is reproduced
exactly. -/

def dropThroughGt : List Char → List Char
  | [] => []
  | c :: rest => if c == '>' then rest else dropThroughGt rest

/-- The lower-cased alphabetic tag name at the head of a character list. -/
def lowerTagName (cs : List Char) : List Char := (cs.takeWhile Char.isAlpha).map Char.toLower

/-- Skip to just past the closing tag `</name ...>`. -/
def pastCloseTag (name : List Char) : List Char → List Char
  | [] => []
  | c :: rest =>
    if c == '<' then
      match rest with
      | '/' :: r2 => if lowerTagName r2 == name then dropThroughGt r2 else pastCloseTag name rest
      | _ => pastCloseTag name rest
    else pastCloseTag name rest

/-- Fueled text extraction; each step consumes at least one input character,
so fuel equal to the input length (as supplied by `stripMarkup`) never runs
out. -/
def stripMarkupF : Nat → List Char → List Char
  | 0, _ => []
  | _, [] => []
  | fuel + 1, c :: rest =>
    if c == '<' then
      let tag := lowerTagName rest
      if tag == "script".data || tag == "style".data then
        stripMarkupF fuel (pastCloseTag tag (dropThroughGt rest))
      else stripMarkupF fuel (dropThroughGt rest)
    else c :: stripMarkupF fuel rest

def stripMarkup (cs : List Char) : List Char := stripMarkupF cs.length cs

/-- The whitespace characters `str.strip` removes (ASCII range). -/
def isPyWhitespace (c : Char) : Bool :=
  c == ' ' || c == '\t' || c == '\n' || c == '\r' || c == '\x0b' || c == '\x0c'

def stripChars (cs : List Char) : List Char :=
  ((cs.dropWhile isPyWhitespace).reverse.dropWhile isPyWhitespace).reverse

/-- Python `str.splitlines` on line-break characters.  A `\r\n` pair produces one
extra empty piece compared to Python, which is immaterial here because the
caller strips every piece and drops the empty ones before joining. -/
def splitLinesAux : List Char → List (List Char)
  | [] => [[]]
  | c :: rest =>
    if c == '\n' || c == '\r' then [] :: splitLinesAux rest
    else
      match splitLinesAux rest with
      | h :: t => (c :: h) :: t
      | [] => [[c]]

/-- Python `line.split("  ")`: split on each leftmost non-overlapping two-space
occurrence. -/
def splitDoubleSpace : List Char → List (List Char)
  | ' ' :: ' ' :: rest => [] :: splitDoubleSpace rest
  | [] => [[]]
  | c :: rest =>
    match splitDoubleSpace rest with
    | h :: t => (c :: h) :: t
    | [] => [[c]]

def joinWithSpace : List (List Char) → List Char
  | [] => []
  | [x] => x
  | x :: xs => x ++ ' ' :: joinWithSpace xs

/-- Method `_clean_html_content`: empty input short-circuits; otherwise strip
markup, then strip each line, split lines on double spaces, strip the
pieces, and join the non-empty pieces with single spaces. -/
def _clean_html_content (html : String) : String :=
  if html == "" then ""
  else
    let text := stripMarkup html.data
    let chunks := ((splitLinesAux text).map stripChars).flatMap
      (fun line => (splitDoubleSpace line).map stripChars)
    ⟨joinWithSpace (chunks.filter (fun c => !c.isEmpty))⟩

/-- The usable raw text of one content attribute, mirroring the branch
structure of `_extract_content`: a non-empty list contributes its first
dict's `value` (default `""`), a string contributes itself (even when
empty), everything else falls through. -/
def contentFieldText : Option ContentVal → Option String
  | none => none
  | some (.str s) => some s
  | some (.lst []) => none
  | some (.lst (d :: _)) => some (dictGetD d "value" "")
  | some .other => none

/-- Method `_extract_content`: first usable field among `content`, `summary`,
`description` wins and is HTML-cleaned; no usable field yields `""`. -/
def _extract_content (e : Entry) : String :=
  match contentFieldText e.content with
  | some raw => _clean_html_content raw
  | none =>
    match contentFieldText e.summary with
    | some raw => _clean_html_content raw
    | none =>
      match contentFieldText e.description with
      | some raw => _clean_html_content raw
      | none => ""

/-! ## Articles and the collector -/

/-- The `Article` dataclass.  `hash_id` is a plain stored field; the
`__post_init__` computation is modelled by the constructor function
`mkArticle`, through which every article built by the pipeline passes. -/
structure Article where
  title : String
  content : String
  url : String
  published_date : PyDateTime
  source : String
  thumbnail_url : Option String
  country : Option String
  hash_id : String
deriving DecidableEq, Repr

/-- Construction `Article(...)` followed by `__post_init__`:
`hash_id = md5(f"{title}{url}").hexdigest()`. -/
def mkArticle (title content url : String) (published_date : PyDateTime)
    (source : String) (thumbnail_url : Option String) (country : Option String) : Article :=
  { title := title, content := content, url := url, published_date := published_date,
    source := source, thumbnail_url := thumbnail_url, country := country,
    hash_id := md5Hex (title ++ url) }

/-- The collector's configuration state as set by `__init__`.  The HTTP
session and logger carry no pipeline-relevant state and are omitted. -/
structure LGBTQNewsCollector where
  newsapi_key : Option String
  rss_feeds : List (String × String)
  lgbtq_keywords : List String
  default_excluded_keywords : List String
deriving DecidableEq

/-- The API key literal hard-coded in `__init__`. -/
def hardcodedNewsapiKey : String := "eb080d6f006a4d068a852f914673d458"

/-- The `rss_feeds` mapping, in source order. -/
def configuredRssFeeds : List (String × String) :=
  [("advocate", "https://www.advocate.com/rss.xml"),
   ("pinknews", "https://www.pinknews.co.uk/feed/"),
   ("google_lgbtq_atlanta", "https://news.google.com/rss/search?q=gay%20atlanta%20-matt%20-jazz&hl=en-US&gl=US&ceid=US%3Aen"),
   ("google_lgbtq_general", "https://news.google.com/rss/search?q=LGBTQ%20lesbian%20gay%20bisexual&hl=en-US&gl=US&ceid=US%3Aen"),
   ("google_gay_rights", "https://news.google.com/rss/topics/CAAqIggKIhxDQkFTRHdvSkwyMHZNR1EyTTJ0MEVnSmxiaWdBUAE?hl=en-US&gl=US&ceid=US%3Aen"),
   ("google_pride_news", "https://news.google.com/rss/search?q=pride%20month%20lgbtq&hl=en-US&gl=US&ceid=US%3Aen"),
   ("google_transgender_news", "https://news.google.com/rss/search?q=transgender%20rights&hl=en-US&gl=US&ceid=US%3Aen"),
   ("theguardian", "https://www.theguardian.com/world/lgbt-rights/rss"),
   ("queerty", "https://www.queerty.com/feed"),
   ("lgbtqnation", "https://www.lgbtqnation.com/feed/"),
   ("washington_blade", "https://www.washingtonblade.com/feed/"),
   ("outsports", "https://www.outsports.com/rss/index.xml"),
   ("them", "https://www.them.us/feed/rss"),
   ("gaycitynews", "https://gaycitynews.com/feed/"),
   ("soundcloud", "http://feeds.soundcloud.com/users/soundcloud:users:2640728/sounds.rss"),
   ("getoutspoken", "https://getoutspoken.com/")]

def configuredLgbtqKeywords : List String :=
  ["LGBTQ", "LGBT", "gay", "lesbian", "transgender", "bisexual",
   "queer", "pride", "rainbow", "homosexual", "same-sex",
   "gender identity", "sexual orientation", "marriage equality",
   "trans rights", "gay rights", "GLAAD", "Pride Month"]

def configuredDefaultExcluded : List String :=
  ["death", "died", "suicide", "murder", "killed", "violence",
   "attack", "assault", "harassment", "abuse", "hate crime"]

/-- Constructor `__init__(newsapi_key=None)`: the parameter is ignored and every field
is set to the same built-in configuration. -/
def LGBTQNewsCollector.init (newsapi_key : Option String) : LGBTQNewsCollector :=
  { newsapi_key := some hardcodedNewsapiKey,
    rss_feeds := configuredRssFeeds,
    lgbtq_keywords := configuredLgbtqKeywords,
    default_excluded_keywords := configuredDefaultExcluded }

/-- Method `filter_articles_by_keywords`: an absent or empty keyword list is
replaced by the collector's default exclusions; an article is kept iff no
lower-cased keyword occurs as a substring of the lower-cased
`f"{title} {content}"`. -/
def LGBTQNewsCollector.filter_articles_by_keywords (c : LGBTQNewsCollector)
    (articles : List Article) (exclude_keywords : Option (List String)) : List Article :=
  let kws := match exclude_keywords with
    | none => c.default_excluded_keywords
    | some ks => if ks.isEmpty then c.default_excluded_keywords else ks
  if kws.isEmpty then articles
  else
    let kwsLower := kws.map lowerString
    articles.filter fun article =>
      let text := lowerString (article.title ++ " " ++ article.content)
      !(kwsLower.any fun kw => containsSub kw text)

/-- The loop of `_deduplicate_articles`: `seen` is the set of hashes already
encountered, an article is appended iff its `hash_id` is not in `seen`. -/
def dedupSeen : List Article → List String → List Article
  | [], _ => []
  | a :: rest, seen =>
    if seen.contains a.hash_id then dedupSeen rest seen
    else a :: dedupSeen rest (a.hash_id :: seen)

def _deduplicate_articles (articles : List Article) : List Article := dedupSeen articles []

/-- The instant `cutoff_time = datetime.now(timezone.utc) - timedelta(hours=hours_back)`,
with `now` the current UTC instant in seconds. -/
def cutoffTime (now hours_back : Int) : PyDateTime := ⟨now - hours_back * 3600, some 0⟩

/-- Python truthiness of an optional string. -/
def optFalsy (o : Option String) : Bool :=
  match o with
  | none => true
  | some s => s == ""

/-- The article-construction tail of the per-entry body: extract content,
resolve a thumbnail (the RSS-side extractor, falling back to the URL-side
fetcher when the first result is falsy), and build the `Article`; a missing
`title` or `link` attribute raises and the per-entry handler skips the
entry.  `thumbRss` and `thumbUrl` are oracles for the two thumbnail
extractors, whose regex-, BeautifulSoup- and network-driven internals no
verified claim constrains; every theorem quantifies over them. -/
def buildEntryArticle (thumbRss : Entry → Option String) (thumbUrl : String → Option String)
    (source_name : String) (e : Entry) (final_pub_date : PyDateTime) : Option Article :=
  let content := _extract_content e
  let t1 := thumbRss e
  match e.title, e.link with
  | some ti, some li =>
    let thumb := if optFalsy t1 then thumbUrl li else t1
    some (mkArticle ti content li final_pub_date source_name thumb none)
  | _, _ => none

/-- One iteration of the per-entry loop of
`collect_from_rss_with_resilience`: parse the entry's date; if a date was
found, normalize it and skip the entry when it falls before the cutoff;
build the article with the normalized date, or with `now` when no date was
discoverable. -/
def processEntry (thumbRss : Entry → Option String) (thumbUrl : String → Option String)
    (now : Int) (cutoff : PyDateTime) (source_name : String) (e : Entry) : Option Article :=
  match _parse_date e with
  | some pub_date =>
    let nd := normalize_datetime pub_date
    if dtLt nd cutoff then none
    else buildEntryArticle thumbRss thumbUrl source_name e nd
  | none => buildEntryArticle thumbRss thumbUrl source_name e ⟨now, some 0⟩

/-- One iteration of the per-source loop: `fetch feed_url source_name`
models `_fetch_and_fix_feed` plus everything else in the per-source `try`
(an `Except.error` is any exception reaching the per-source handler, which
records the failure and continues); a feed with no entries is likewise
skipped. -/
def perSourceRss (fetch : String → String → Except String (List Entry))
    (thumbRss : Entry → Option String) (thumbUrl : String → Option String)
    (now hours_back : Int) (src : String × String) : List Article :=
  match fetch src.2 src.1 with
  | .error _ => []
  | .ok entries =>
    if entries.isEmpty then []
    else entries.filterMap (processEntry thumbRss thumbUrl now (cutoffTime now hours_back) src.1)

/-- Method `collect_from_rss_with_resilience`: the per-source results in
configuration order (the `failed_feeds`/`successful_feeds` lists and the
rate-limiting sleep only feed logging). -/
def LGBTQNewsCollector.collect_from_rss_with_resilience (c : LGBTQNewsCollector)
    (fetch : String → String → Except String (List Entry))
    (thumbRss : Entry → Option String) (thumbUrl : String → Option String)
    (now hours_back : Int) : List Article :=
  c.rss_feeds.flatMap (perSourceRss fetch thumbRss thumbUrl now hours_back)

/-- One article object from a NewsAPI response, with `none` modelling a JSON
`null` (the response schema always carries the keys). -/
structure ApiArticle where
  title : String
  description : Option String
  url : String
  publishedAt : Option String
  content : Option String
  urlToImage : Option String
  sourceName : String
deriving DecidableEq

/-- Python `s.replace('Z', '+00:00')`. -/
def replaceZ : List Char → List Char
  | [] => []
  | 'Z' :: rest => '+' :: '0' :: '0' :: ':' :: '0' :: '0' :: replaceZ rest
  | c :: rest => c :: replaceZ rest

def zToOffset (s : String) : String := ⟨replaceZ s.data⟩

/-- One iteration of the per-article loop of `collect_from_newsapi`: drop
articles with falsy or `[Removed]` content, parse `publishedAt` with
`fromisoformat` after the `Z` replacement (a null field or parse failure
raises and skips the article), prefer `description` over `content` for the
body, and build the `Article`. -/
def processApiArticle (a : ApiArticle) : Option Article :=
  match a.content with
  | none => none
  | some ctext =>
    if ctext == "" || ctext == "[Removed]" then none
    else
      match a.publishedAt with
      | none => none
      | some ps =>
        match fromisoformat (zToOffset ps) with
        | none => none
        | some pub_date =>
          let body := match a.description with
            | none => ctext
            | some d => if d == "" then ctext else d
          some (mkArticle a.title body a.url pub_date a.sourceName a.urlToImage none)

/-- The per-keyword query loop of `collect_from_newsapi`: one request per
keyword in the first five configured keywords; `apiFetch key kw` models the
HTTP request plus JSON decoding (the remaining query parameters — the
recency window, language, page size — are fixed per call and absorbed into
the oracle), and a per-keyword failure is caught and skipped. -/
def newsapiQueryLoop (key : String) (keywords : List String)
    (apiFetch : String → String → Except String (List ApiArticle)) : List Article :=
  (keywords.take 5).flatMap fun kw =>
    match apiFetch key kw with
    | .error _ => []
    | .ok arts => arts.filterMap processApiArticle

/-- Method `collect_from_newsapi`: return `[]` when the stored key is falsy,
otherwise run the query loop. -/
def LGBTQNewsCollector.collect_from_newsapi (c : LGBTQNewsCollector)
    (apiFetch : String → String → Except String (List ApiArticle)) : List Article :=
  match c.newsapi_key with
  | none => []
  | some key => if key == "" then [] else newsapiQueryLoop key c.lgbtq_keywords apiFetch

/-- Method `collect_all_sources`: RSS articles, then NewsAPI articles, then
deduplication, then keyword filtering. -/
def LGBTQNewsCollector.collect_all_sources (c : LGBTQNewsCollector)
    (fetch : String → String → Except String (List Entry))
    (thumbRss : Entry → Option String) (thumbUrl : String → Option String)
    (apiFetch : String → String → Except String (List ApiArticle))
    (now hours_back : Int) (exclude_keywords : Option (List String)) : List Article :=
  let all_articles := c.collect_from_rss_with_resilience fetch thumbRss thumbUrl now hours_back
    ++ c.collect_from_newsapi apiFetch
  let unique_articles := _deduplicate_articles all_articles
  c.filter_articles_by_keywords unique_articles exclude_keywords

/-! ## Specification-side definitions

These follow the wording of the design specification (not the source) and
exist to be compared with the source-derived definitions above. -/

/-- Spec-side restatement of the Deduplicator contract: scanning left to
right, a record is kept iff no earlier record of the same list (kept or
not) carries the same fingerprint, and kept records stay in order.
`earlier` accumulates all records already scanned. -/
def keptFirstGo (earlier : List Article) : List Article → List Article
  | [] => []
  | a :: rest =>
    if earlier.all (fun b => b.hash_id != a.hash_id) then
      a :: keptFirstGo (earlier ++ [a]) rest
    else keptFirstGo (earlier ++ [a]) rest

def keptFirst (articles : List Article) : List Article := keptFirstGo [] articles

/-- The raw text of a content attribute under the claim's reading, where
only a present and NON-EMPTY field counts. -/
def nonEmptyFieldText (o : Option ContentVal) : Option String :=
  match contentFieldText o with
  | some s => if s == "" then none else some s
  | none => none

def firstNonEmptyFieldText (e : Entry) : Option String :=
  match nonEmptyFieldText e.content with
  | some s => some s
  | none =>
    match nonEmptyFieldText e.summary with
    | some s => some s
    | none => nonEmptyFieldText e.description

/-- The Content Extractor as the claim states it: the text of the first
field among `content`, `summary`, `description` that is present and
non-empty, markup stripped; empty string when there is no such field. -/
def specExtractFirstNonEmpty (e : Entry) : String :=
  match firstNonEmptyFieldText e with
  | some raw => _clean_html_content raw
  | none => ""

/-- The Content Extractor as the code actually behaves (the amended claim):
the first field that is present and of usable shape wins — a string field
wins even when it is the empty string. -/
def firstUsableFieldText (e : Entry) : Option String :=
  match contentFieldText e.content with
  | some s => some s
  | none =>
    match contentFieldText e.summary with
    | some s => some s
    | none => contentFieldText e.description

def specExtractFirstUsable (e : Entry) : String :=
  match firstUsableFieldText e with
  | some raw => _clean_html_content raw
  | none => ""

/-- Does this API article's `publishedAt`, whenever the pipeline can parse
it at all, carry an explicit UTC offset?  This is the API-contract
assumption under which the published-date invariant holds. -/
def apiPublishedAware (a : ApiArticle) : Bool :=
  match a.publishedAt with
  | none => true
  | some ps => (fromisoformat (zToOffset ps)).all fun dt => dt.tz.isSome

/-! ## Concrete fixtures used by counterexamples and witnesses -/

def blankEntry : Entry :=
  { title := none, link := none, content := none, summary := none, description := none,
    published_parsed := none, updated_parsed := none, published := none, updated := none }

def helloEntry : Entry := { blankEntry with content := some (.str "<p>Hello <b>World</b></p>") }

/-- An entry whose `content` attribute is the empty string while `summary`
is non-empty. -/
def emptyContentEntry : Entry :=
  { blankEntry with content := some (.str ""), summary := some (.str "Hello") }

/-- A well-formed entry with no date information. -/
def goodEntry : Entry :=
  { blankEntry with title := some "Pride story", link := some "https://example.org/x" }

/-- An entry with a structured date far in the past. -/
def oldEntry : Entry :=
  { blankEntry with
    title := some "Old story"
    link := some "https://example.org/old"
    published_parsed := some [2020, 1, 1, 0, 0, 0, 2, 1, 0] }

def murderArticle : Article :=
  mkArticle "A murder case" "story text" "https://example.org/m" ⟨0, some 0⟩ "advocate" none none

/-- A NewsAPI article whose `publishedAt` carries no UTC offset. -/
def naiveApiArticle : ApiArticle :=
  { title := "Pride feature", description := some "A community report",
    url := "https://example.org/pride", publishedAt := some "2024-06-01T12:00:00",
    content := some "Full text", urlToImage := none, sourceName := "Example News" }

/-- The same article with an offset-carrying (`Z`-suffixed) `publishedAt`. -/
def awareApiArticle : ApiArticle :=
  { naiveApiArticle with
    publishedAt := some "2024-06-01T12:00:00Z"
    url := "https://example.org/pride2" }

/-- A fetch oracle that fails for the feed URL `urlB` and succeeds
everywhere else. -/
def demoFetch : String → String → Except String (List Entry) :=
  fun url _ => if url == "urlB" then Except.error "connection reset" else Except.ok [goodEntry]

/-- 2024-06-01 00:00:00 UTC, used as the collection instant in witnesses. -/
def demoNow : Int := civilSecs 2024 6 1 0 0 0

/-- A NewsAPI oracle answering one keyword with the offset-free article. -/
def naiveApiFetch : String → String → Except String (List ApiArticle) :=
  fun _ kw => if kw == "LGBTQ" then Except.ok [naiveApiArticle] else Except.ok []

/-- A NewsAPI oracle answering one keyword with the offset-carrying
article. -/
def awareApiFetch : String → String → Except String (List ApiArticle) :=
  fun _ kw => if kw == "LGBTQ" then Except.ok [awareApiArticle] else Except.ok []

/-! ## Helper lemmas -/

/-- Keeping-condition bridge: the Boolean "no earlier record carries this
fingerprint" test of the spec-side scan, as a proposition. -/
theorem all_bne_true_iff (l : List Article) (h : String) :
    (l.all fun b => b.hash_id != h) = true ↔ ∀ b ∈ l, b.hash_id ≠ h := by
  simp [List.all_eq_true]

theorem dedupSeen_cons_dup (a : Article) (rest : List Article) (seen : List String)
    (h : seen.contains a.hash_id = true) :
    dedupSeen (a :: rest) seen = dedupSeen rest seen := by
  have he : dedupSeen (a :: rest) seen =
      if seen.contains a.hash_id = true then dedupSeen rest seen
      else a :: dedupSeen rest (a.hash_id :: seen) := rfl
  rw [he, h]
  exact if_pos rfl

theorem dedupSeen_cons_new (a : Article) (rest : List Article) (seen : List String)
    (h : seen.contains a.hash_id = false) :
    dedupSeen (a :: rest) seen = a :: dedupSeen rest (a.hash_id :: seen) := by
  have he : dedupSeen (a :: rest) seen =
      if seen.contains a.hash_id = true then dedupSeen rest seen
      else a :: dedupSeen rest (a.hash_id :: seen) := rfl
  rw [he, h]
  exact if_neg Bool.false_ne_true

theorem keptFirstGo_cons_dup (a : Article) (rest earlier : List Article)
    (h : (earlier.all fun b => b.hash_id != a.hash_id) = false) :
    keptFirstGo earlier (a :: rest) = keptFirstGo (earlier ++ [a]) rest := by
  have he : keptFirstGo earlier (a :: rest) =
      if (earlier.all fun b => b.hash_id != a.hash_id) = true then
        a :: keptFirstGo (earlier ++ [a]) rest
      else keptFirstGo (earlier ++ [a]) rest := rfl
  rw [he, h]
  exact if_neg Bool.false_ne_true

theorem keptFirstGo_cons_new (a : Article) (rest earlier : List Article)
    (h : (earlier.all fun b => b.hash_id != a.hash_id) = true) :
    keptFirstGo earlier (a :: rest) = a :: keptFirstGo (earlier ++ [a]) rest := by
  have he : keptFirstGo earlier (a :: rest) =
      if (earlier.all fun b => b.hash_id != a.hash_id) = true then
        a :: keptFirstGo (earlier ++ [a]) rest
      else keptFirstGo (earlier ++ [a]) rest := rfl
  rw [he, h]
  exact if_pos rfl

/-- The `seen`-set loop of `_deduplicate_articles` agrees with the
spec-side scan that consults all earlier records, whenever `seen` holds
exactly the fingerprints of the earlier records. -/
theorem dedupSeen_eq_keptFirstGo :
    ∀ (xs : List Article) (seen : List String) (earlier : List Article),
      (∀ h : String, h ∈ seen ↔ ∃ b ∈ earlier, b.hash_id = h) →
      dedupSeen xs seen = keptFirstGo earlier xs := by
  intro xs
  induction xs with
  | nil => intro seen earlier _; rfl
  | cons a rest ih =>
    intro seen earlier hinv
    by_cases hmem : a.hash_id ∈ seen
    · have hc : seen.contains a.hash_id = true := List.elem_iff.mpr hmem
      have hall : (earlier.all fun b => b.hash_id != a.hash_id) = false := by
        obtain ⟨b, hb, hbh⟩ := (hinv a.hash_id).mp hmem
        cases hv : earlier.all fun b => b.hash_id != a.hash_id
        · rfl
        · exact absurd hbh ((all_bne_true_iff earlier a.hash_id).mp hv b hb)
      have hinv2 : ∀ h : String, h ∈ seen ↔ ∃ b ∈ earlier ++ [a], b.hash_id = h := by
        intro h
        rw [hinv h]
        constructor
        · rintro ⟨b, hb, hbh⟩
          exact ⟨b, List.mem_append_left _ hb, hbh⟩
        · rintro ⟨b, hb, hbh⟩
          rcases List.mem_append.mp hb with hb2 | hb2
          · exact ⟨b, hb2, hbh⟩
          · rw [List.mem_singleton] at hb2
            subst hb2
            cases hbh
            exact (hinv b.hash_id).mp hmem
      rw [dedupSeen_cons_dup a rest seen hc, keptFirstGo_cons_dup a rest earlier hall]
      exact ih seen (earlier ++ [a]) hinv2
    · have hc : seen.contains a.hash_id = false := by
        cases hv : seen.contains a.hash_id
        · rfl
        · exact absurd (List.elem_iff.mp hv) hmem
      have hall : (earlier.all fun b => b.hash_id != a.hash_id) = true := by
        rw [all_bne_true_iff]
        intro b hb hbh
        exact hmem ((hinv a.hash_id).mpr ⟨b, hb, hbh⟩)
      have hinv3 : ∀ h : String,
          h ∈ (a.hash_id :: seen) ↔ ∃ b ∈ earlier ++ [a], b.hash_id = h := by
        intro h
        constructor
        · intro hh
          rcases List.mem_cons.mp hh with hh2 | hh2
          · exact ⟨a, List.mem_append_right _ (List.mem_singleton.mpr rfl), hh2.symm⟩
          · obtain ⟨b, hb, hbh⟩ := (hinv h).mp hh2
            exact ⟨b, List.mem_append_left _ hb, hbh⟩
        · rintro ⟨b, hb, hbh⟩
          rcases List.mem_append.mp hb with hb2 | hb2
          · exact List.mem_cons_of_mem _ ((hinv h).mpr ⟨b, hb2, hbh⟩)
          · rw [List.mem_singleton] at hb2
            subst hb2
            cases hbh
            exact List.mem_cons_self _ _
      rw [dedupSeen_cons_new a rest seen hc, keptFirstGo_cons_new a rest earlier hall]
      rw [ih (a.hash_id :: seen) (earlier ++ [a]) hinv3]

/-- A second dedup pass over a dedup result removes nothing, as long as the
second pass starts from a smaller seen-set. -/
theorem dedupSeen_twice :
    ∀ (xs : List Article) (s1 s2 : List String),
      (∀ h, h ∈ s2 → h ∈ s1) →
      dedupSeen (dedupSeen xs s1) s2 = dedupSeen xs s1 := by
  intro xs
  induction xs with
  | nil => intro s1 s2 _; rfl
  | cons a rest ih =>
    intro s1 s2 hsub
    by_cases hmem : a.hash_id ∈ s1
    · have hc1 : s1.contains a.hash_id = true := List.elem_iff.mpr hmem
      rw [dedupSeen_cons_dup a rest s1 hc1]
      exact ih s1 s2 hsub
    · have hc1 : s1.contains a.hash_id = false := by
        cases hv : s1.contains a.hash_id
        · rfl
        · exact absurd (List.elem_iff.mp hv) hmem
      have hc2 : s2.contains a.hash_id = false := by
        cases hv : s2.contains a.hash_id
        · rfl
        · exact absurd (hsub _ (List.elem_iff.mp hv)) hmem
      have hstep : ∀ h, h ∈ (a.hash_id :: s2) → h ∈ (a.hash_id :: s1) := by
        intro h hh
        rcases List.mem_cons.mp hh with hh2 | hh2
        · exact hh2 ▸ List.mem_cons_self _ _
        · exact List.mem_cons_of_mem _ (hsub h hh2)
      rw [dedupSeen_cons_new a rest s1 hc1,
        dedupSeen_cons_new a (dedupSeen rest (a.hash_id :: s1)) s2 hc2,
        ih (a.hash_id :: s1) (a.hash_id :: s2) hstep]

theorem mem_dedupSeen :
    ∀ (xs : List Article) (seen : List String) (a : Article),
      a ∈ dedupSeen xs seen → a ∈ xs := by
  intro xs
  induction xs with
  | nil => intro seen a h; exact absurd h (by simp [dedupSeen])
  | cons x rest ih =>
    intro xseen a h
    cases hc : xseen.contains x.hash_id with
    | true =>
      rw [dedupSeen_cons_dup x rest xseen hc] at h
      exact List.mem_cons_of_mem x (ih xseen a h)
    | false =>
      rw [dedupSeen_cons_new x rest xseen hc] at h
      rcases List.mem_cons.mp h with h2 | h2
      · exact h2 ▸ List.mem_cons_self x rest
      · exact List.mem_cons_of_mem x (ih (x.hash_id :: xseen) a h2)

/-- Filtering with a stronger keep-predicate keeps no more elements. -/
theorem filter_length_mono_pred (p q : Article → Bool)
    (h : ∀ a, p a = true → q a = true) :
    ∀ xs : List Article, (xs.filter p).length ≤ (xs.filter q).length := by
  intro xs
  induction xs with
  | nil => simp
  | cons a rest ih =>
    cases hp : p a with
    | true =>
      rw [List.filter_cons_of_pos hp, List.filter_cons_of_pos (h a hp)]
      simpa using ih
    | false =>
      rw [List.filter_cons_of_neg (by simp [hp])]
      cases hq : q a with
      | true =>
        rw [List.filter_cons_of_pos hq]
        exact Nat.le_trans ih (by simp)
      | false =>
        rw [List.filter_cons_of_neg (by simp [hq])]
        exact ih

theorem mem_filter_articles (c : LGBTQNewsCollector) (xs : List Article)
    (ek : Option (List String)) (a : Article)
    (h : a ∈ c.filter_articles_by_keywords xs ek) : a ∈ xs := by
  simp only [LGBTQNewsCollector.filter_articles_by_keywords] at h
  split at h
  · exact h
  · exact (List.mem_filter.mp h).1

theorem normalize_datetime_tz (dt : PyDateTime) :
    (normalize_datetime dt).tz = some 0 := by
  unfold normalize_datetime
  cases dt.tz <;> rfl

theorem buildEntryArticle_fields {thumbRss : Entry → Option String}
    {thumbUrl : String → Option String} {src : String} {e : Entry}
    {fd : PyDateTime} {a : Article}
    (h : buildEntryArticle thumbRss thumbUrl src e fd = some a) :
    a.published_date = fd ∧ a.hash_id = md5Hex (a.title ++ a.url) := by
  unfold buildEntryArticle at h
  rcases ht : e.title with _ | ti <;> rw [ht] at h
  · simp at h
  · rcases hl : e.link with _ | li <;> rw [hl] at h
    · simp at h
    · simp only [Option.some.injEq] at h
      subst h
      exact ⟨rfl, rfl⟩

theorem processEntry_some_inv {thumbRss : Entry → Option String}
    {thumbUrl : String → Option String} {now : Int} {cutoff : PyDateTime}
    {src : String} {e : Entry} {a : Article}
    (h : processEntry thumbRss thumbUrl now cutoff src e = some a) :
    a.hash_id = md5Hex (a.title ++ a.url) ∧ a.published_date.tz.isSome = true := by
  unfold processEntry at h
  rcases hp : _parse_date e with _ | d <;> rw [hp] at h
  · have h2 : buildEntryArticle thumbRss thumbUrl src e ⟨now, some 0⟩ = some a := h
    obtain ⟨hd, hh⟩ := buildEntryArticle_fields h2
    exact ⟨hh, by rw [hd]; rfl⟩
  · have h2 : (if dtLt (normalize_datetime d) cutoff = true then none
        else buildEntryArticle thumbRss thumbUrl src e (normalize_datetime d)) = some a := h
    cases hlt : dtLt (normalize_datetime d) cutoff with
    | true =>
      rw [hlt, if_pos rfl] at h2
      exact absurd h2 (by simp)
    | false =>
      rw [hlt, if_neg Bool.false_ne_true] at h2
      obtain ⟨hd, hh⟩ := buildEntryArticle_fields h2
      refine ⟨hh, ?_⟩
      rw [hd, normalize_datetime_tz]
      rfl

theorem mem_perSourceRss {fetch : String → String → Except String (List Entry)}
    {thumbRss : Entry → Option String} {thumbUrl : String → Option String}
    {now hours_back : Int} {src : String × String} {a : Article}
    (h : a ∈ perSourceRss fetch thumbRss thumbUrl now hours_back src) :
    ∃ e, processEntry thumbRss thumbUrl now (cutoffTime now hours_back) src.1 e = some a := by
  unfold perSourceRss at h
  rcases hf : fetch src.2 src.1 with err | entries <;> rw [hf] at h
  · exact absurd h (List.not_mem_nil a)
  · have h2 : a ∈ (if entries.isEmpty = true then []
        else entries.filterMap
          (processEntry thumbRss thumbUrl now (cutoffTime now hours_back) src.1)) := h
    cases he : entries.isEmpty with
    | true =>
      rw [he, if_pos rfl] at h2
      exact absurd h2 (List.not_mem_nil a)
    | false =>
      rw [he, if_neg Bool.false_ne_true] at h2
      obtain ⟨e, _, hpe⟩ := List.mem_filterMap.mp h2
      exact ⟨e, hpe⟩

theorem mem_collect_from_newsapi {c : LGBTQNewsCollector}
    {apiFetch : String → String → Except String (List ApiArticle)} {a : Article}
    (h : a ∈ c.collect_from_newsapi apiFetch) :
    ∃ key kw arts a0, apiFetch key kw = Except.ok arts ∧ a0 ∈ arts ∧
      processApiArticle a0 = some a := by
  unfold LGBTQNewsCollector.collect_from_newsapi at h
  rcases hk : c.newsapi_key with _ | key <;> rw [hk] at h
  · exact absurd h (List.not_mem_nil a)
  · have h2 : a ∈ (if (key == "") = true then []
        else newsapiQueryLoop key c.lgbtq_keywords apiFetch) := h
    cases hke : key == "" with
    | true =>
      rw [hke, if_pos rfl] at h2
      exact absurd h2 (List.not_mem_nil a)
    | false =>
      rw [hke, if_neg Bool.false_ne_true] at h2
      unfold newsapiQueryLoop at h2
      obtain ⟨kw, _, hkw⟩ := List.mem_flatMap.mp h2
      rcases hq : apiFetch key kw with err | arts <;> rw [hq] at hkw
      · exact absurd (show a ∈ ([] : List Article) from hkw) (List.not_mem_nil a)
      · have h3 : a ∈ arts.filterMap processApiArticle := hkw
        obtain ⟨a0, ha0, hpa⟩ := List.mem_filterMap.mp h3
        exact ⟨key, kw, arts, a0, hq, ha0, hpa⟩

theorem processApiArticle_some_inv {a0 : ApiArticle} {a : Article}
    (h : processApiArticle a0 = some a) :
    a.hash_id = md5Hex (a.title ++ a.url) ∧
      (apiPublishedAware a0 = true → a.published_date.tz.isSome = true) := by
  unfold processApiArticle at h
  rcases hc : a0.content with _ | ctext <;> rw [hc] at h
  · exact absurd h (by simp)
  · have h2 : (if (ctext == "" || ctext == "[Removed]") = true then none
        else match a0.publishedAt with
          | none => none
          | some ps =>
            match fromisoformat (zToOffset ps) with
            | none => none
            | some pub_date =>
              let body := match a0.description with
                | none => ctext
                | some d => if d == "" then ctext else d
              some (mkArticle a0.title body a0.url pub_date a0.sourceName
                a0.urlToImage none)) = some a := h
    cases hrem : (ctext == "" || ctext == "[Removed]") with
    | true =>
      rw [hrem, if_pos rfl] at h2
      exact absurd h2 (by simp)
    | false =>
      rw [hrem, if_neg Bool.false_ne_true] at h2
      rcases hps : a0.publishedAt with _ | ps <;> rw [hps] at h2
      · exact absurd h2 (by simp)
      · have h3 : (match fromisoformat (zToOffset ps) with
            | none => none
            | some pub_date =>
              let body := match a0.description with
                | none => ctext
                | some d => if d == "" then ctext else d
              some (mkArticle a0.title body a0.url pub_date a0.sourceName
                a0.urlToImage none)) = some a := h2
        rcases hf : fromisoformat (zToOffset ps) with _ | pub <;> rw [hf] at h3
        · exact absurd h3 (by simp)
        · have h4 : mkArticle a0.title
              (match a0.description with
                | none => ctext
                | some d => if d == "" then ctext else d)
              a0.url pub a0.sourceName a0.urlToImage none = a := by
            have h5 := h3
            simp only [Option.some.injEq] at h5
            exact h5
          subst h4
          refine ⟨rfl, ?_⟩
          intro haware
          unfold apiPublishedAware at haware
          rw [hps] at haware
          have ha2 : ((fromisoformat (zToOffset ps)).all fun dt => dt.tz.isSome) = true :=
            haware
          rw [hf] at ha2
          exact ha2

/-- Every record of a `collect_all_sources` result was produced either by
the per-entry RSS step or by the per-article NewsAPI step. -/
theorem mem_collect_all_cases {c : LGBTQNewsCollector}
    {fetch : String → String → Except String (List Entry)}
    {thumbRss : Entry → Option String} {thumbUrl : String → Option String}
    {apiFetch : String → String → Except String (List ApiArticle)}
    {now hours_back : Int} {ek : Option (List String)} {a : Article}
    (h : a ∈ c.collect_all_sources fetch thumbRss thumbUrl apiFetch now hours_back ek) :
    (∃ src e, processEntry thumbRss thumbUrl now (cutoffTime now hours_back) src e = some a)
    ∨ (∃ key kw arts a0, apiFetch key kw = Except.ok arts ∧ a0 ∈ arts ∧
        processApiArticle a0 = some a) := by
  simp only [LGBTQNewsCollector.collect_all_sources] at h
  have h1 := mem_filter_articles _ _ _ _ h
  have h2 := mem_dedupSeen _ _ _ h1
  rcases List.mem_append.mp h2 with hr | hna
  · left
    simp only [LGBTQNewsCollector.collect_from_rss_with_resilience] at hr
    obtain ⟨src, _, hsrc⟩ := List.mem_flatMap.mp hr
    obtain ⟨e, hpe⟩ := mem_perSourceRss hsrc
    exact ⟨src.1, e, hpe⟩
  · right
    exact mem_collect_from_newsapi hna

/-- A source whose fetch fails, or yields no entries, contributes no
articles. -/
theorem perSourceRss_failed (fetch : String → String → Except String (List Entry))
    (thumbRss : Entry → Option String) (thumbUrl : String → Option String)
    (now hours_back : Int) (n u : String)
    (h : (∃ err, fetch u n = Except.error err) ∨ fetch u n = Except.ok []) :
    perSourceRss fetch thumbRss thumbUrl now hours_back (n, u) = [] := by
  unfold perSourceRss
  rcases h with ⟨err, he⟩ | he <;> rw [he] <;> simp

/-! ## Claim theorems -/

/-- C1: `collect_all_sources` tolerates per-source fetch failures.  For any
configured source list, if the fetch of one source raises an exception or
yields an empty feed, that source is skipped and the collection call
returns exactly what it would return over the remaining sources alone — a
single source failure never aborts the collection call. -/
theorem collect_all_sources_tolerates_single_source_failure
    (c : LGBTQNewsCollector) (L1 L2 : List (String × String)) (n u : String)
    (fetch : String → String → Except String (List Entry))
    (thumbRss : Entry → Option String) (thumbUrl : String → Option String)
    (apiFetch : String → String → Except String (List ApiArticle))
    (now hours_back : Int) (ek : Option (List String))
    (h : (∃ err, fetch u n = Except.error err) ∨ fetch u n = Except.ok []) :
    ({ c with rss_feeds := L1 ++ (n, u) :: L2 }).collect_all_sources
        fetch thumbRss thumbUrl apiFetch now hours_back ek
      = ({ c with rss_feeds := L1 ++ L2 }).collect_all_sources
        fetch thumbRss thumbUrl apiFetch now hours_back ek := by
  have hp := perSourceRss_failed fetch thumbRss thumbUrl now hours_back n u h
  unfold LGBTQNewsCollector.collect_all_sources
    LGBTQNewsCollector.collect_from_rss_with_resilience
  simp only [List.flatMap_append, List.flatMap_cons, hp, List.nil_append, List.append_nil]
  rfl

/-- Witness for C1: with three configured sources of which the middle one's
fetch raises, collection returns exactly the two-source result. -/
theorem collect_all_sources_tolerates_single_source_failure_witness :
    ({ LGBTQNewsCollector.init none with
        rss_feeds := [("advocate", "urlA")] ++ ("broken", "urlB") :: [("queerty", "urlC")] }).collect_all_sources
        demoFetch (fun _ => none) (fun _ => none) (fun _ _ => Except.error "offline")
        demoNow 24 none
      = ({ LGBTQNewsCollector.init none with
        rss_feeds := [("advocate", "urlA")] ++ [("queerty", "urlC")] }).collect_all_sources
        demoFetch (fun _ => none) (fun _ => none) (fun _ _ => Except.error "offline")
        demoNow 24 none :=
  collect_all_sources_tolerates_single_source_failure (LGBTQNewsCollector.init none)
    [("advocate", "urlA")] [("queerty", "urlC")] "broken" "urlB" demoFetch
    (fun _ => none) (fun _ => none) (fun _ _ => Except.error "offline") demoNow 24 none
    (Or.inl ⟨"connection reset", rfl⟩)

/-- C3: the Deduplicator keeps exactly the first occurrence of each
fingerprint — a record is kept iff no earlier record in the same list has
the same fingerprint, and the kept records retain their original relative
order (the spec-side scan `keptFirst` states exactly that). -/
theorem deduplicate_keeps_first_occurrence_in_order (xs : List Article) :
    _deduplicate_articles xs = keptFirst xs :=
  dedupSeen_eq_keptFirstGo xs [] [] (fun h => by simp)

/-- C9: the Deduplicator is idempotent: running it on its own output yields
that output unchanged. -/
theorem deduplicate_idempotent (xs : List Article) :
    _deduplicate_articles (_deduplicate_articles xs) = _deduplicate_articles xs :=
  dedupSeen_twice xs [] [] (fun _ hh => hh)

/-- C4: during RSS collection with `hours_back`, an entry whose parsed and
normalized date is older than `now - hours_back` is skipped, while an entry
with no discoverable date is never dropped by the recency cutoff: it is
built with `published_date` equal to the current instant and kept (given
the title and link every built record needs). -/
theorem recency_cutoff_skips_old_dated_keeps_undated
    (thumbRss : Entry → Option String) (thumbUrl : String → Option String)
    (now hours_back : Int) (src : String) (e : Entry) :
    (∀ d, _parse_date e = some d →
      dtLt (normalize_datetime d) (cutoffTime now hours_back) = true →
      processEntry thumbRss thumbUrl now (cutoffTime now hours_back) src e = none)
    ∧ (_parse_date e = none → ∀ ti li, e.title = some ti → e.link = some li →
        ∃ a, processEntry thumbRss thumbUrl now (cutoffTime now hours_back) src e = some a
          ∧ a.published_date = ⟨now, some 0⟩) := by
  constructor
  · intro d hd hlt
    unfold processEntry
    rw [hd]
    have h2 : (if dtLt (normalize_datetime d) (cutoffTime now hours_back) = true then none
        else buildEntryArticle thumbRss thumbUrl src e (normalize_datetime d))
        = (none : Option Article) := by
      rw [hlt]
      exact if_pos rfl
    exact h2
  · intro hd ti li hti hli
    unfold processEntry
    rw [hd]
    show ∃ a, buildEntryArticle thumbRss thumbUrl src e ⟨now, some 0⟩ = some a
      ∧ a.published_date = ⟨now, some 0⟩
    unfold buildEntryArticle
    rw [hti, hli]
    exact ⟨_, rfl, rfl⟩

/-- Witness for C4: with `now` = 2024-06-01 and a 24-hour window, an entry
dated 2020-01-01 is skipped, and an entry with no date is kept and
timestamped `now`. -/
theorem recency_cutoff_skips_old_dated_keeps_undated_witness :
    processEntry (fun _ => none) (fun _ => none) demoNow (cutoffTime demoNow 24) "advocate"
        oldEntry = none
    ∧ ((processEntry (fun _ => none) (fun _ => none) demoNow (cutoffTime demoNow 24) "advocate"
        goodEntry).map Article.published_date) = some ⟨demoNow, some 0⟩ := by
  constructor
  · exact (recency_cutoff_skips_old_dated_keeps_undated (fun _ => none) (fun _ => none)
      demoNow 24 "advocate" oldEntry).1 ⟨civilSecs 2020 1 1 0 0 0, some 0⟩
      (by decide) (by decide)
  · obtain ⟨a, ha, hdate⟩ := (recency_cutoff_skips_old_dated_keeps_undated (fun _ => none)
      (fun _ => none) demoNow 24 "advocate" goodEntry).2 (by decide)
      "Pride story" "https://example.org/x" (by decide) (by decide)
    rw [ha, Option.map_some', hdate]

/-- Unfolding lemma: filtering with an explicit non-empty keyword list uses
exactly that list. -/
theorem filter_articles_nonempty (c : LGBTQNewsCollector) (xs : List Article)
    (ks : List String) (h : ks.isEmpty = false) :
    c.filter_articles_by_keywords xs (some ks) =
      xs.filter (fun article =>
        !((ks.map lowerString).any fun kw =>
          containsSub kw (lowerString (article.title ++ " " ++ article.content)))) := by
  have e1 : c.filter_articles_by_keywords xs (some ks) =
      (if (if ks.isEmpty = true then c.default_excluded_keywords else ks).isEmpty = true then xs
      else xs.filter (fun article =>
        !(((if ks.isEmpty = true then c.default_excluded_keywords else ks).map
            lowerString).any
          fun kw => containsSub kw
            (lowerString (article.title ++ " " ++ article.content))))) := rfl
  rw [e1]
  simp only [h, Bool.false_eq_true, if_false]

/-- C5 counterexample: the Keyword Filter is not monotonic over all pairs
K ⊆ K' of exclusion lists, because the empty list triggers the built-in
default exclusions: with K = [] and K' = ["zzz"], filtering one
murder-mentioning record with the superset K' keeps strictly more records
than filtering with the subset K. -/
theorem filter_monotonicity_fails_on_empty_list_counterexample :
    (([] : List String).all fun kw => ["zzz"].contains kw) = true
    ∧ ((LGBTQNewsCollector.init none).filter_articles_by_keywords [murderArticle]
          (some ["zzz"])).length
        > ((LGBTQNewsCollector.init none).filter_articles_by_keywords [murderArticle]
          (some [])).length :=
  ⟨rfl, by decide⟩

/-- C5 (amended): for every fixed input list and every two NON-EMPTY
exclusion-keyword lists K ⊆ K2, filtering with the superset K2 never
yields more records than filtering with K. -/
theorem filter_monotonic_for_nonempty_keyword_lists
    (c : LGBTQNewsCollector) (xs : List Article) (K K2 : List String)
    (hne : K ≠ []) (hsub : ∀ kw ∈ K, kw ∈ K2) :
    (c.filter_articles_by_keywords xs (some K2)).length
      ≤ (c.filter_articles_by_keywords xs (some K)).length := by
  have hne2 : K2 ≠ [] := by
    rcases K with _ | ⟨k, ks⟩
    · exact absurd rfl hne
    · intro h2
      have hmem := hsub k (List.mem_cons_self k ks)
      rw [h2] at hmem
      exact absurd hmem (List.not_mem_nil k)
  have hKe : K.isEmpty = false := by
    cases K
    · exact absurd rfl hne
    · rfl
  have hK2e : K2.isEmpty = false := by
    cases K2
    · exact absurd rfl hne2
    · rfl
  rw [filter_articles_nonempty c xs K2 hK2e, filter_articles_nonempty c xs K hKe]
  apply filter_length_mono_pred
  intro a hpa
  simp only at hpa ⊢
  have hmap : ∀ kw ∈ K.map lowerString, kw ∈ K2.map lowerString := by
    intro kw hkw
    obtain ⟨k, hk, hke⟩ := List.mem_map.mp hkw
    exact List.mem_map.mpr ⟨k, hsub k hk, hke⟩
  cases hv : ((K.map lowerString).any fun kw =>
      containsSub kw (lowerString (a.title ++ " " ++ a.content))) with
  | false => simp [hv]
  | true =>
    exfalso
    obtain ⟨kw, hkw, hctn⟩ := List.any_eq_true.mp hv
    have hv2 : ((K2.map lowerString).any fun kw =>
        containsSub kw (lowerString (a.title ++ " " ++ a.content))) = true :=
      List.any_eq_true.mpr ⟨kw, hmap kw hkw, hctn⟩
    rw [hv2] at hpa
    simp at hpa

/-- Witness for C5 (amended) at concrete inputs K = ["murder"] ⊆
K2 = ["murder", "zzz"]. -/
theorem filter_monotonic_for_nonempty_keyword_lists_witness :
    (["murder"] : List String) ≠ []
    ∧ (∀ kw ∈ (["murder"] : List String), kw ∈ (["murder", "zzz"] : List String))
    ∧ ((LGBTQNewsCollector.init none).filter_articles_by_keywords [murderArticle]
          (some ["murder", "zzz"])).length
        ≤ ((LGBTQNewsCollector.init none).filter_articles_by_keywords [murderArticle]
          (some ["murder"])).length :=
  ⟨by decide, by decide,
    filter_monotonic_for_nonempty_keyword_lists (LGBTQNewsCollector.init none)
      [murderArticle] ["murder"] ["murder", "zzz"] (by decide) (by decide)⟩

/-- C6 counterexample: the Content Extractor does not always return the
first PRESENT AND NON-EMPTY field: on an entry whose `content` attribute is
the empty string and whose `summary` is "Hello", the claim's reading
yields "Hello" but `_extract_content` returns "". -/
theorem extract_content_not_first_nonempty_counterexample :
    specExtractFirstNonEmpty emptyContentEntry = "Hello"
    ∧ _extract_content emptyContentEntry = "" :=
  ⟨by decide, by decide⟩

/-- C6 (amended): the Content Extractor returns the markup-stripped text of
the first field among `content`, `summary`, `description` that is present
and of usable shape — a string field wins even when empty, a list field
only when non-empty — and returns the empty string when no field is
usable; on an entry whose only content field is
"<p>Hello <b>World</b></p>" it returns "Hello World". -/
theorem extract_content_first_usable_field :
    (∀ e : Entry, _extract_content e = specExtractFirstUsable e)
    ∧ _extract_content helloEntry = "Hello World" := by
  constructor
  · intro e
    unfold _extract_content specExtractFirstUsable firstUsableFieldText
    cases contentFieldText e.content
    · cases contentFieldText e.summary
      · cases contentFieldText e.description <;> rfl
      · rfl
    · rfl
  · decide

/-- C2 counterexample: a collection call CAN return a record with a naive
(unqualified) `published_date`: the NewsAPI branch stores the result of
`fromisoformat` without normalization, so an API `publishedAt` carrying no
UTC offset produces a naive stored timestamp. -/
theorem published_date_can_be_naive_counterexample :
    ((LGBTQNewsCollector.init none).collect_all_sources (fun _ _ => Except.ok [])
        (fun _ => none) (fun _ => none) naiveApiFetch demoNow 24 none).all
      (fun a => a.published_date.tz.isSome) = false := by
  decide

/-- C2 (amended): every RSS-collected record is timezone-qualified
unconditionally, and every record of a collection call is
timezone-qualified provided each NewsAPI article's `publishedAt`, whenever
it parses, carries an explicit UTC offset (the API contract). -/
theorem published_date_aware_under_api_offset_contract
    (c : LGBTQNewsCollector)
    (fetch : String → String → Except String (List Entry))
    (thumbRss : Entry → Option String) (thumbUrl : String → Option String)
    (apiFetch : String → String → Except String (List ApiArticle))
    (now hours_back : Int) (ek : Option (List String))
    (hapi : ∀ key kw arts, apiFetch key kw = Except.ok arts →
      ∀ a0 ∈ arts, apiPublishedAware a0 = true) :
    ∀ art ∈ c.collect_all_sources fetch thumbRss thumbUrl apiFetch now hours_back ek,
      art.published_date.tz.isSome = true := by
  intro art hart
  rcases mem_collect_all_cases hart with ⟨src, e, hpe⟩ | ⟨key, kw, arts, a0, hok, ha0, hpa⟩
  · exact (processEntry_some_inv hpe).2
  · exact (processApiArticle_some_inv hpa).2 (hapi key kw arts hok a0 ha0)

/-- The concrete aware oracle satisfies the API-offset contract. -/
theorem awareApiFetch_contract :
    ∀ key kw arts, awareApiFetch key kw = Except.ok arts →
      ∀ a0 ∈ arts, apiPublishedAware a0 = true := by
  intro key kw arts hok a0 ha0
  unfold awareApiFetch at hok
  cases hkw : kw == "LGBTQ" with
  | true =>
    rw [hkw, if_pos rfl] at hok
    injection hok with h2
    subst h2
    rw [List.mem_singleton] at ha0
    subst ha0
    decide
  | false =>
    rw [hkw, if_neg Bool.false_ne_true] at hok
    injection hok with h2
    subst h2
    exact absurd ha0 (List.not_mem_nil a0)

/-- Witness for C2 (amended): a collection call against an offset-carrying
API response returns a non-empty result in which every record is
timezone-qualified. -/
theorem published_date_aware_under_api_offset_contract_witness :
    ((LGBTQNewsCollector.init none).collect_all_sources (fun _ _ => Except.ok [])
        (fun _ => none) (fun _ => none) awareApiFetch demoNow 24 none ≠ [])
    ∧ ((LGBTQNewsCollector.init none).collect_all_sources (fun _ _ => Except.ok [])
        (fun _ => none) (fun _ => none) awareApiFetch demoNow 24 none).all
      (fun a => a.published_date.tz.isSome) = true := by
  refine ⟨by decide, List.all_eq_true.mpr ?_⟩
  intro a ha
  have h2 := published_date_aware_under_api_offset_contract (LGBTQNewsCollector.init none)
    (fun _ _ => Except.ok []) (fun _ => none) (fun _ => none) awareApiFetch demoNow 24 none
    awareApiFetch_contract a ha
  simpa using h2

/-- C7: a record's fingerprint is a deterministic function of exactly its
title and url: articles built with identical `(title, url)` receive
identical `hash_id`s regardless of every other field, and every record any
collection call produces — whatever source or fetch pass produced it —
carries `hash_id = md5(title ++ url)`. -/
theorem hash_id_determined_by_title_and_url :
    (∀ t u c1 c2 p1 p2 s1 s2 th1 th2 co1 co2,
      (mkArticle t c1 u p1 s1 th1 co1).hash_id = (mkArticle t c2 u p2 s2 th2 co2).hash_id)
    ∧ ∀ (c : LGBTQNewsCollector)
        (fetch : String → String → Except String (List Entry))
        (thumbRss : Entry → Option String) (thumbUrl : String → Option String)
        (apiFetch : String → String → Except String (List ApiArticle))
        (now hours_back : Int) (ek : Option (List String)) (a : Article),
        a ∈ c.collect_all_sources fetch thumbRss thumbUrl apiFetch now hours_back ek →
        a.hash_id = md5Hex (a.title ++ a.url) := by
  constructor
  · intro t u c1 c2 p1 p2 s1 s2 th1 th2 co1 co2
    rfl
  · intro c fetch thumbRss thumbUrl apiFetch now hours_back ek a ha
    rcases mem_collect_all_cases ha with ⟨src, e, hpe⟩ | ⟨key, kw, arts, a0, hok, ha0, hpa⟩
    · exact (processEntry_some_inv hpe).1
    · exact (processApiArticle_some_inv hpa).1

/-- Witness for C7: a concrete collection call returns a non-empty list in
which every record's fingerprint equals the MD5 of its title and url. -/
theorem hash_id_determined_by_title_and_url_witness :
    ((LGBTQNewsCollector.init none).collect_all_sources demoFetch
        (fun _ => none) (fun _ => none) (fun _ _ => Except.error "offline")
        demoNow 24 none ≠ [])
    ∧ ((LGBTQNewsCollector.init none).collect_all_sources demoFetch
        (fun _ => none) (fun _ => none) (fun _ _ => Except.error "offline")
        demoNow 24 none).all
      (fun a => a.hash_id == md5Hex (a.title ++ a.url)) = true := by
  refine ⟨by decide, List.all_eq_true.mpr ?_⟩
  intro a ha
  have h2 := hash_id_determined_by_title_and_url.2 (LGBTQNewsCollector.init none) demoFetch
    (fun _ => none) (fun _ => none) (fun _ _ => Except.error "offline") demoNow 24 none a ha
  simpa using h2

/-- C8: with `exclude_keywords` absent or empty, the built-in default
exclusion set (which contains "murder") is applied: a record is dropped iff
some default term occurs as a substring of the lower-cased space-joined
title and body, and kept otherwise. -/
theorem default_exclusions_applied_when_keywords_absent
    (k : Option String) (xs : List Article) (ek : Option (List String))
    (h : ek = none ∨ ek = some []) :
    (LGBTQNewsCollector.init k).filter_articles_by_keywords xs ek =
      xs.filter (fun a =>
        !(configuredDefaultExcluded.any fun kw =>
          containsSub (lowerString kw) (lowerString (a.title ++ " " ++ a.content))))
    ∧ "murder" ∈ configuredDefaultExcluded := by
  refine ⟨?_, by decide⟩
  rcases h with h | h <;> subst h
  · have e1 : (LGBTQNewsCollector.init k).filter_articles_by_keywords xs none =
        (if configuredDefaultExcluded.isEmpty = true then xs
        else xs.filter (fun article =>
          !((configuredDefaultExcluded.map lowerString).any
            fun kw => containsSub kw
              (lowerString (article.title ++ " " ++ article.content))))) := rfl
    rw [e1, if_neg (by decide)]
    exact List.filter_congr (fun a _ => rfl)
  · have e1 : (LGBTQNewsCollector.init k).filter_articles_by_keywords xs (some []) =
        (if configuredDefaultExcluded.isEmpty = true then xs
        else xs.filter (fun article =>
          !((configuredDefaultExcluded.map lowerString).any
            fun kw => containsSub kw
              (lowerString (article.title ++ " " ++ article.content))))) := rfl
    rw [e1, if_neg (by decide)]
    exact List.filter_congr (fun a _ => rfl)

/-- Witness for C8: the default set is applied to a concrete call with
absent keywords, and a record containing "murder" is dropped by it. -/
theorem default_exclusions_applied_when_keywords_absent_witness :
    ((LGBTQNewsCollector.init none).filter_articles_by_keywords [murderArticle] none =
      [murderArticle].filter (fun a =>
        !(configuredDefaultExcluded.any fun kw =>
          containsSub (lowerString kw) (lowerString (a.title ++ " " ++ a.content))))
    ∧ "murder" ∈ configuredDefaultExcluded)
    ∧ (LGBTQNewsCollector.init none).filter_articles_by_keywords [murderArticle] none = [] :=
  ⟨default_exclusions_applied_when_keywords_absent none [murderArticle] none (Or.inl rfl),
    by decide⟩

/-- C10: the collector's behaviour is independent of the `newsapi_key`
constructor argument: any two constructed collectors are equal (so every
operation on them agrees), the stored key is always the hard-coded
built-in one, and `collect_from_newsapi` always runs the query loop — the
"no key, skip NewsAPI" branch is unreachable. -/
theorem collector_ignores_newsapi_key_argument :
    (∀ k1 k2 : Option String, LGBTQNewsCollector.init k1 = LGBTQNewsCollector.init k2)
    ∧ (∀ k, (LGBTQNewsCollector.init k).newsapi_key = some hardcodedNewsapiKey)
    ∧ (∀ (k : Option String) (apiFetch : String → String → Except String (List ApiArticle)),
        (LGBTQNewsCollector.init k).collect_from_newsapi apiFetch =
          newsapiQueryLoop hardcodedNewsapiKey configuredLgbtqKeywords apiFetch) := by
  refine ⟨fun k1 k2 => rfl, fun k => rfl, fun k apiFetch => ?_⟩
  have e1 : (LGBTQNewsCollector.init k).collect_from_newsapi apiFetch =
      (if (hardcodedNewsapiKey == "") = true then []
      else newsapiQueryLoop hardcodedNewsapiKey configuredLgbtqKeywords apiFetch) := rfl
  rw [e1, if_neg (by decide)]
